import Mathlib

/-!
Verification of the explicit finite-difference Black-Scholes pricer
(class FiniteDifferencePricer in code.cpp).

Modelling conventions:
* C++ double arithmetic is embedded as exact rational arithmetic over ℚ;
  every claim here is about the structure of the computed expressions,
  not about rounding.
* std::exp is transcendental, hence not a rational function; the embedding
  abstracts it as an explicit function parameter e : ℚ → ℚ standing for
  x ↦ exp x.  No claim below depends on analytic properties of exp, only
  on where the call appears in the data flow.
* std::vector indexing is fallible: reading index j of a grid U is
  modelled by readGrid U j : Option ℚ, which is none exactly when the
  C++ access U[j] would be out of bounds (undefined behavior).
-/

/-- The Parameters struct of FiniteDifferencePricer (all fields are
C++ doubles, including the option type flag). -/
structure Parameters where
  type : ℚ
  S0 : ℚ
  K : ℚ
  r : ℚ
  sigma : ℚ
  T : ℚ

/-- The member Smax; the constructor sets it to 4.0 * params.K and
inputParameters re-sets it to 4.0 * params.K after reading K, so at
every use site it equals 4 times the current strike. -/
def Smax (p : Parameters) : ℚ := 4 * p.K

/-- Spatial step dS = Smax / N computed in configureMode. -/
def dS (p : Parameters) (N : ℕ) : ℚ := Smax p / N

/-- Temporal step dt computed in configureMode:
dt = min(dS*dS / (sigma*sigma*Smax*Smax), T / M_target) with M_target = 100. -/
def dt (p : Parameters) (N : ℕ) : ℚ :=
  min (dS p N * dS p N / (p.sigma * p.sigma * Smax p * Smax p)) (p.T / 100)

/-- Number of temporal steps M = static_cast<int>(T / dt) + 1 computed in
configureMode (the cast truncates toward zero, which is the floor for the
nonnegative quotient T / dt). -/
def Msteps (p : Parameters) (N : ℕ) : ℕ := (⌊p.T / dt p N⌋).toNat + 1

/-- checkStability(): dt <= dS*dS / (sigma*sigma*Smax*Smax). -/
def checkStability (p : Parameters) (N : ℕ) : Bool :=
  decide (dt p N ≤ dS p N * dS p N / (p.sigma * p.sigma * Smax p * Smax p))

/-- call_payoff(S, K) = std::max(S - K, 0.0). -/
def call_payoff (S K : ℚ) : ℚ := max (S - K) 0

/-- Checked read of grid entry U[j]: some value when 0 <= j < U.length,
none when the C++ vector access would be out of bounds. -/
def readGrid (U : List ℚ) (j : ℤ) : Option ℚ :=
  if h : 0 ≤ j ∧ j.toNat < U.length then some (U.get ⟨j.toNat, h.2⟩) else none

/-- The grid right after the initialization loop of computeCallOptionPrice:
U[j] = call_payoff(j * dS, K) for j = 0..N. -/
def initialGrid (p : Parameters) (N : ℕ) : List ℚ :=
  (List.range (N + 1)).map (fun (j : ℕ) => call_payoff ((j : ℚ) * dS p N) p.K)

/-- The interior update of one time step of computeCallOptionPrice:
reads U_old[j-1], U_old[j], U_old[j+1] (fallible vector accesses) and
combines them with the coefficients a, b, c of the explicit recurrence. -/
def stepInterior (p : Parameters) (N : ℕ) (Uold : List ℚ) (j : ℕ) : Option ℚ := do
  let um ← readGrid Uold ((j : ℤ) - 1)
  let u0 ← readGrid Uold (j : ℤ)
  let up ← readGrid Uold ((j : ℤ) + 1)
  let S : ℚ := (j : ℚ) * dS p N
  let alpha := p.sigma * p.sigma * S * S * dt p N / (2 * dS p N * dS p N)
  let beta := p.r * S * dt p N / (2 * dS p N)
  let a := alpha - beta
  let b := 1 - p.r * dt p N - 2 * alpha
  let c := alpha + beta
  pure (a * um + b * u0 + c * up)

/-- The value the grid holds at index j once the iteration with loop
counter m of computeCallOptionPrice has completed.  The loop body writes
the interior recurrence for j = 1..N-1, then U[0] = 0, then
U[N] = Smax - K * exp(-r * tau) with tau = T - (m - 1) * dt; the j = N
write happens last, so it wins when N = 0. -/
def timeStepEntry (e : ℚ → ℚ) (p : Parameters) (N : ℕ) (m : ℕ) (Uold : List ℚ)
    (j : ℕ) : Option ℚ :=
  if j = N then some (Smax p - p.K * e (-(p.r * (p.T - ((m : ℚ) - 1) * dt p N))))
  else if j = 0 then some 0
  else stepInterior p N Uold j

/-- Sequences the fallible per-index computations of one loop pass into a
grid, propagating any out-of-bounds failure. -/
def seqGrid (f : ℕ → Option ℚ) : List ℕ → Option (List ℚ)
  | [] => some []
  | j :: js => do
      let v ← f j
      let vs ← seqGrid f js
      pure (v :: vs)

/-- One backward-time iteration (loop counter m) of computeCallOptionPrice:
the new grid read entirely from the copied previous layer U_old. -/
def timeStep (e : ℚ → ℚ) (p : Parameters) (N : ℕ) (m : ℕ) (Uold : List ℚ) :
    Option (List ℚ) :=
  seqGrid (timeStepEntry e p N m Uold) (List.range (N + 1))

/-- The first k iterations of the time loop for m = M; m > 0; m--.
Iteration number k + 1 runs with loop counter m = M - k. -/
def solveSteps (e : ℚ → ℚ) (p : Parameters) (N M : ℕ) : ℕ → Option (List ℚ)
  | 0 => some (initialGrid p N)
  | k + 1 => (solveSteps e p N M k).bind (timeStep e p N (M - k))

/-- computeCallOptionPrice(): payoff initialization followed by exactly
M = Msteps iterations of the explicit scheme. -/
def computeCallOptionPrice (e : ℚ → ℚ) (p : Parameters) (N : ℕ) :
    Option (List ℚ) :=
  solveSteps e p N (Msteps p N) (Msteps p N)

/-- The integer part j0 = static_cast<int>(std::floor(S0 / dS)) used by
displayResults. -/
def j0 (p : Parameters) (N : ℕ) : ℤ := ⌊p.S0 / dS p N⌋

/-- The interpolation weight w = S0 / dS - j0 used by displayResults. -/
def wFrac (p : Parameters) (N : ℕ) : ℚ := p.S0 / dS p N - (j0 p N : ℚ)

/-- The expression for price_call in displayResults:
(j0 >= 0 && j0 < N) ? (1 - w) * U[j0] + w * U[j0 + 1] : U[j0].
Both branches read the vector, so both are fallible. -/
def evalPrice (p : Parameters) (N : ℕ) (U : List ℚ) : Option ℚ :=
  if 0 ≤ j0 p N ∧ j0 p N < (N : ℤ) then do
    let u0 ← readGrid U (j0 p N)
    let u1 ← readGrid U (j0 p N + 1)
    pure ((1 - wFrac p N) * u0 + wFrac p N * u1)
  else readGrid U (j0 p N)

/-- The expression for Delta_call in displayResults:
(j0 > 0 && j0 < N) ? (U[j0 + 1] - U[j0 - 1]) / (2 * dS) : 0. -/
def evalDelta (p : Parameters) (N : ℕ) (U : List ℚ) : Option ℚ :=
  if 0 < j0 p N ∧ j0 p N < (N : ℤ) then do
    let up ← readGrid U (j0 p N + 1)
    let um ← readGrid U (j0 p N - 1)
    pure ((up - um) / (2 * dS p N))
  else some 0

/-- The expression for Gamma in displayResults:
(j0 > 0 && j0 < N) ? (U[j0 + 1] - 2 * U[j0] + U[j0 - 1]) / (dS * dS) : 0. -/
def evalGamma (p : Parameters) (N : ℕ) (U : List ℚ) : Option ℚ :=
  if 0 < j0 p N ∧ j0 p N < (N : ℤ) then do
    let up ← readGrid U (j0 p N + 1)
    let u0 ← readGrid U (j0 p N)
    let um ← readGrid U (j0 p N - 1)
    pure ((up - 2 * u0 + um) / (dS p N * dS p N))
  else some 0

/-- The three outputs printed by displayResults. -/
structure Results where
  price : ℚ
  delta : ℚ
  gamma : ℚ
deriving DecidableEq

/-- The put-call parity adjustment at the end of displayResults:
price and Delta start as the call values and are adjusted when
params.type == 0; Gamma is passed through in both cases. -/
def adjustForPut (e : ℚ → ℚ) (p : Parameters) (price_call Delta_call Gamma_fd : ℚ) :
    Results :=
  if p.type = 0 then
    { price := price_call - p.S0 + p.K * e (-(p.r * p.T))
      delta := Delta_call - 1
      gamma := Gamma_fd }
  else { price := price_call, delta := Delta_call, gamma := Gamma_fd }

/-- displayResults(): evaluate the call price and Greeks on the final
grid, then apply the parity adjustment. -/
def displayResults (e : ℚ → ℚ) (p : Parameters) (N : ℕ) (U : List ℚ) :
    Option Results := do
  let pc ← evalPrice p N U
  let dc ← evalDelta p N U
  let g ← evalGamma p N U
  pure (adjustForPut e p pc dc g)

/-- inputParameters(): each validated cin read overwrites one field of the
member params in order; Smax is then recomputed from the new K (the model
derives Smax from the current K, see Smax).  The record inp holds the
values the user finally enters after validation. -/
def inputParameters (p0 : Parameters) (inp : Parameters) : Parameters :=
  let p1 := { p0 with type := inp.type }
  let p2 := { p1 with S0 := inp.S0 }
  let p3 := { p2 with K := inp.K }
  let p4 := { p3 with r := inp.r }
  let p5 := { p4 with sigma := inp.sigma }
  { p5 with T := inp.T }

/-- configureMode(): the spatial resolution selected by the mode read from
the user (1 precise, 2 fast, 3 custom, anything else falls back to fast). -/
def chooseN (mode : ℤ) (customN : ℕ) : ℕ :=
  if mode = 1 then 2000 else if mode = 2 then 100
  else if mode = 3 then customN else 100

/-- run(): read the parameters (overwriting the constructor values), pick N
from the mode, check stability (abort with no result on failure), solve,
and produce the displayed results. -/
def runPricer (e : ℚ → ℚ) (p0 inp : Parameters) (mode : ℤ) (customN : ℕ) :
    Option Results :=
  let p := inputParameters p0 inp
  let N := chooseN mode customN
  if checkStability p N then
    (computeCallOptionPrice e p N).bind (displayResults e p N)
  else none

/-- The mismatched aggregate initializer in main:
Parameters{100.0, 135.0, 0.05, 0.2, 1.0} fills the first five fields in
declaration order (type = 100, S0 = 135, K = 0.05, r = 0.2, sigma = 1)
and value-initializes T to 0. -/
def mainDefaultParams : Parameters :=
  { type := 100, S0 := 135, K := 1/20, r := 1/5, sigma := 1, T := 0 }

/-- Total form of the interior update, with the three neighbor reads
expressed through List.getD; stepInterior agrees with it whenever the
previous layer has the expected N + 1 entries (stepInterior_eq_some). -/
def stepInteriorD (p : Parameters) (N : ℕ) (Uold : List ℚ) (j : ℕ) : ℚ :=
  let S : ℚ := (j : ℚ) * dS p N
  let alpha := p.sigma * p.sigma * S * S * dt p N / (2 * dS p N * dS p N)
  let beta := p.r * S * dt p N / (2 * dS p N)
  (alpha - beta) * Uold.getD (j - 1) 0 + (1 - p.r * dt p N - 2 * alpha) * Uold.getD j 0
    + (alpha + beta) * Uold.getD (j + 1) 0

/-- Total form of timeStepEntry. -/
def timeStepEntryD (e : ℚ → ℚ) (p : Parameters) (N : ℕ) (m : ℕ) (Uold : List ℚ)
    (j : ℕ) : ℚ :=
  if j = N then Smax p - p.K * e (-(p.r * (p.T - ((m : ℚ) - 1) * dt p N)))
  else if j = 0 then 0
  else stepInteriorD p N Uold j

theorem getD_range_map (n j : ℕ) (f : ℕ → ℚ) (h : j < n) :
    ((List.range n).map f).getD j 0 = f j := by
  simp [List.getD_eq_getElem?_getD, List.getElem?_map, List.getElem?_range, h]

theorem readGrid_eq_getD (U : List ℚ) (j : ℤ) (h0 : 0 ≤ j) (h1 : j.toNat < U.length) :
    readGrid U j = some (U.getD j.toNat 0) := by
  rw [readGrid, dif_pos ⟨h0, h1⟩]
  simp [List.get_eq_getElem, List.getD_eq_getElem?_getD, List.getElem?_eq_getElem h1]

theorem stepInterior_eq_some (p : Parameters) (N : ℕ) (Uold : List ℚ)
    (hU : Uold.length = N + 1) (j : ℕ) (h1 : 1 ≤ j) (h2 : j < N) :
    stepInterior p N Uold j = some (stepInteriorD p N Uold j) := by
  have e1 : readGrid Uold ((j : ℤ) - 1) = some (Uold.getD (j - 1) 0) := by
    have h := readGrid_eq_getD Uold ((j : ℤ) - 1) (by omega) (by rw [hU]; omega)
    rwa [show ((j : ℤ) - 1).toNat = j - 1 by omega] at h
  have e2 : readGrid Uold (j : ℤ) = some (Uold.getD j 0) := by
    have h := readGrid_eq_getD Uold (j : ℤ) (by omega) (by rw [hU]; omega)
    rwa [show ((j : ℤ)).toNat = j by omega] at h
  have e3 : readGrid Uold ((j : ℤ) + 1) = some (Uold.getD (j + 1) 0) := by
    have h := readGrid_eq_getD Uold ((j : ℤ) + 1) (by omega) (by rw [hU]; omega)
    rwa [show ((j : ℤ) + 1).toNat = j + 1 by omega] at h
  simp [stepInterior, e1, e2, e3, stepInteriorD]

theorem timeStepEntry_eq_some (e : ℚ → ℚ) (p : Parameters) (N m : ℕ) (Uold : List ℚ)
    (hU : Uold.length = N + 1) (j : ℕ) (hj : j < N + 1) :
    timeStepEntry e p N m Uold j = some (timeStepEntryD e p N m Uold j) := by
  by_cases hN : j = N
  · simp [timeStepEntry, timeStepEntryD, hN]
  · by_cases h0 : j = 0
    · subst h0; simp [timeStepEntry, timeStepEntryD, hN]
    · rw [timeStepEntry, if_neg hN, if_neg h0, timeStepEntryD, if_neg hN, if_neg h0]
      exact stepInterior_eq_some p N Uold hU j (by omega) (by omega)

theorem seqGrid_eq_map (f : ℕ → Option ℚ) (g : ℕ → ℚ) (l : List ℕ)
    (h : ∀ x ∈ l, f x = some (g x)) : seqGrid f l = some (l.map g) := by
  induction l with
  | nil => rfl
  | cons a l ih =>
      have ha : f a = some (g a) := h a (by simp)
      have hl : seqGrid f l = some (l.map g) := ih fun x hx => h x (by simp [hx])
      simp [seqGrid, ha, hl]

theorem timeStep_eq_map (e : ℚ → ℚ) (p : Parameters) (N m : ℕ) (Uold : List ℚ)
    (hU : Uold.length = N + 1) :
    timeStep e p N m Uold
      = some ((List.range (N + 1)).map (timeStepEntryD e p N m Uold)) := by
  refine seqGrid_eq_map _ _ _ fun x hx => ?_
  exact timeStepEntry_eq_some e p N m Uold hU x (List.mem_range.mp hx)

theorem solveSteps_some (e : ℚ → ℚ) (p : Parameters) (N M : ℕ) (k : ℕ) :
    ∃ V, solveSteps e p N M k = some V ∧ V.length = N + 1 := by
  induction k with
  | zero =>
      exact ⟨initialGrid p N, rfl, by rw [initialGrid, List.length_map, List.length_range]⟩
  | succ k ih =>
      obtain ⟨V, hV, hlen⟩ := ih
      refine ⟨(List.range (N + 1)).map (timeStepEntryD e p N (M - k) V), ?_,
        by rw [List.length_map, List.length_range]⟩
      simp [solveSteps, hV, timeStep_eq_map e p N (M - k) V hlen]

/-- Example parameter set used in witnesses: the scenario of the spec with
type = 1 (call), S0 = 100, K = 135, r = 0.05, sigma = 0.2, T = 1. -/
def pEx : Parameters := { type := 1, S0 := 100, K := 135, r := 1/20, sigma := 1/5, T := 1 }

/-- The same scenario with type = 0 (put). -/
def pPutEx : Parameters := { pEx with type := 0 }

/-- Concrete stand-in for x ↦ exp x used to instantiate witnesses; no claim
depends on which function is used here. -/
def idExp : ℚ → ℚ := fun x => x

/-- Claim C1: for every parameter set satisfying the documented
preconditions (strike positive, volatility in (0,1], maturity positive)
and every positive spatial step count N, the grid sizing yields a
temporal step within the stability bound dS^2 / (sigma^2 * Smax^2), so
checkStability returns true and the stability-error branch of run() is
unreachable. -/
theorem stability_by_construction (p : Parameters) (N : ℕ)
    (hK : 0 < p.K) (hs0 : 0 < p.sigma) (hs1 : p.sigma ≤ 1) (hT : 0 < p.T)
    (hN : 0 < N) :
    dt p N ≤ dS p N * dS p N / (p.sigma * p.sigma * Smax p * Smax p) ∧
      checkStability p N = true := by
  refine ⟨min_le_left _ _, ?_⟩
  simp only [checkStability, decide_eq_true_eq]
  exact min_le_left _ _

theorem stability_by_construction_witness :
    dt pEx 100 ≤ dS pEx 100 * dS pEx 100 / (pEx.sigma * pEx.sigma * Smax pEx * Smax pEx) ∧
      checkStability pEx 100 = true :=
  stability_by_construction pEx 100 (by norm_num [pEx]) (by norm_num [pEx])
    (by norm_num [pEx]) (by norm_num [pEx]) (by norm_num)

/-- Claim C8: configureMode sets dt = min(stability bound, T / 100) and
M = floor(T / dt) + 1, and consequently T / dt is at least 100, so the
minimum time resolution is guaranteed even when the stability bound alone
would allow a very large step. -/
theorem minimum_time_resolution (p : Parameters) (N : ℕ)
    (hK : 0 < p.K) (hs0 : 0 < p.sigma) (hs1 : p.sigma ≤ 1) (hT : 0 < p.T)
    (hN : 0 < N) :
    dt p N = min (dS p N * dS p N / (p.sigma * p.sigma * Smax p * Smax p)) (p.T / 100) ∧
      Msteps p N = (⌊p.T / dt p N⌋).toNat + 1 ∧
      (100 : ℚ) ≤ p.T / dt p N := by
  refine ⟨rfl, rfl, ?_⟩
  have hSmax : 0 < Smax p := by rw [Smax]; linarith
  have hdS : 0 < dS p N := div_pos hSmax (by exact_mod_cast hN)
  have hstab : 0 < dS p N * dS p N / (p.sigma * p.sigma * Smax p * Smax p) :=
    div_pos (mul_pos hdS hdS) (mul_pos (mul_pos (mul_pos hs0 hs0) hSmax) hSmax)
  have hdt : 0 < dt p N := lt_min hstab (div_pos hT (by norm_num))
  rw [le_div_iff₀ hdt]
  have hmin : dt p N ≤ p.T / 100 := min_le_right _ _
  linarith

theorem minimum_time_resolution_witness :
    dt pEx 100
        = min (dS pEx 100 * dS pEx 100 / (pEx.sigma * pEx.sigma * Smax pEx * Smax pEx))
          (pEx.T / 100) ∧
      Msteps pEx 100 = (⌊pEx.T / dt pEx 100⌋).toNat + 1 ∧
      (100 : ℚ) ≤ pEx.T / dt pEx 100 :=
  minimum_time_resolution pEx 100 (by norm_num [pEx]) (by norm_num [pEx])
    (by norm_num [pEx]) (by norm_num [pEx]) (by norm_num)

/-- Claim C5: immediately after the initialization loop and before any
time step, the grid value at every index j in [0, N] is the call payoff
max(j * dS - K, 0). -/
theorem initial_grid_is_payoff (p : Parameters) (N : ℕ) (j : ℕ) (hj : j ≤ N) :
    (initialGrid p N).getD j 0 = max ((j : ℚ) * dS p N - p.K) 0 := by
  rw [initialGrid, getD_range_map _ _ _ (by omega)]
  rfl

theorem initial_grid_is_payoff_witness :
    (initialGrid pEx 5).getD 3 0 = max (((3 : ℕ) : ℚ) * dS pEx 5 - pEx.K) 0 :=
  initial_grid_is_payoff pEx 5 3 (by norm_num)

/-- Claim C3: at every time step, for every interior index j in [1, N-1]
with S = j * dS, the new value at j is
a * previous[j-1] + b * previous[j] + c * previous[j+1] with
alpha = sigma^2 * S^2 * dt / (2 * dS^2), beta = r * S * dt / (2 * dS),
a = alpha - beta, b = 1 - r * dt - 2 * alpha, c = alpha + beta, all three
reads coming from the full previous layer U_old (double buffering: the
statement holds for an arbitrary previous layer of the expected length,
never a partially updated one). -/
theorem interior_recurrence (e : ℚ → ℚ) (p : Parameters) (N m : ℕ) (Uold : List ℚ)
    (hU : Uold.length = N + 1) (j : ℕ) (h1 : 1 ≤ j) (h2 : j < N) :
    ∃ V, timeStep e p N m Uold = some V ∧
      V.getD j 0 =
        (p.sigma * p.sigma * ((j : ℚ) * dS p N) * ((j : ℚ) * dS p N) * dt p N
              / (2 * dS p N * dS p N)
            - p.r * ((j : ℚ) * dS p N) * dt p N / (2 * dS p N)) * Uold.getD (j - 1) 0
          + (1 - p.r * dt p N
            - 2 * (p.sigma * p.sigma * ((j : ℚ) * dS p N) * ((j : ℚ) * dS p N) * dt p N
              / (2 * dS p N * dS p N))) * Uold.getD j 0
          + (p.sigma * p.sigma * ((j : ℚ) * dS p N) * ((j : ℚ) * dS p N) * dt p N
              / (2 * dS p N * dS p N)
            + p.r * ((j : ℚ) * dS p N) * dt p N / (2 * dS p N)) * Uold.getD (j + 1) 0 := by
  refine ⟨_, timeStep_eq_map e p N m Uold hU, ?_⟩
  rw [getD_range_map _ _ _ (by omega)]
  rw [timeStepEntryD, if_neg (by omega), if_neg (by omega), stepInteriorD]

/-- Previous layer used to witness the interior recurrence. -/
def gridEx : List ℚ := [0, 1, 2, 3, 4]

theorem interior_recurrence_witness :
    ∃ V, timeStep idExp pEx 4 1 gridEx = some V ∧
      V.getD 2 0 =
        (pEx.sigma * pEx.sigma * (((2 : ℕ) : ℚ) * dS pEx 4) * (((2 : ℕ) : ℚ) * dS pEx 4)
              * dt pEx 4 / (2 * dS pEx 4 * dS pEx 4)
            - pEx.r * (((2 : ℕ) : ℚ) * dS pEx 4) * dt pEx 4 / (2 * dS pEx 4))
            * gridEx.getD (2 - 1) 0
          + (1 - pEx.r * dt pEx 4
            - 2 * (pEx.sigma * pEx.sigma * (((2 : ℕ) : ℚ) * dS pEx 4)
              * (((2 : ℕ) : ℚ) * dS pEx 4) * dt pEx 4 / (2 * dS pEx 4 * dS pEx 4)))
            * gridEx.getD 2 0
          + (pEx.sigma * pEx.sigma * (((2 : ℕ) : ℚ) * dS pEx 4) * (((2 : ℕ) : ℚ) * dS pEx 4)
              * dt pEx 4 / (2 * dS pEx 4 * dS pEx 4)
            + pEx.r * (((2 : ℕ) : ℚ) * dS pEx 4) * dt pEx 4 / (2 * dS pEx 4))
            * gridEx.getD (2 + 1) 0 :=
  interior_recurrence idExp pEx 4 1 gridEx (by simp [gridEx]) 2 (by norm_num) (by norm_num)

/-- Claim C4: after every one of the M iterations of the time loop, the
current grid satisfies both boundary conditions: index 0 holds 0, and
index N holds Smax - K * exp(-r * tau) with tau = T - (m - 1) * dt for
loop counter m = M - k on iteration k + 1 (m runs from M down to 1). -/
theorem boundary_conditions_every_step (e : ℚ → ℚ) (p : Parameters) (N M : ℕ)
    (hN : 0 < N) (k : ℕ) (hk : k < M) :
    ∃ V, solveSteps e p N M (k + 1) = some V ∧ V.getD 0 0 = 0 ∧
      V.getD N 0
        = Smax p - p.K * e (-(p.r * (p.T - (((M - k : ℕ) : ℚ) - 1) * dt p N))) := by
  obtain ⟨W, hW, hlen⟩ := solveSteps_some e p N M k
  refine ⟨(List.range (N + 1)).map (timeStepEntryD e p N (M - k) W), ?_, ?_, ?_⟩
  · simp [solveSteps, hW, timeStep_eq_map e p N (M - k) W hlen]
  · rw [getD_range_map _ _ _ (by omega), timeStepEntryD, if_neg (by omega), if_pos rfl]
  · rw [getD_range_map _ _ _ (by omega), timeStepEntryD, if_pos rfl]

theorem boundary_conditions_every_step_witness :
    ∃ V, solveSteps idExp pEx 2 3 (1 + 1) = some V ∧ V.getD 0 0 = 0 ∧
      V.getD 2 0
        = Smax pEx - pEx.K * idExp (-(pEx.r * (pEx.T - (((3 - 1 : ℕ) : ℚ) - 1) * dt pEx 2))) :=
  boundary_conditions_every_step idExp pEx 2 3 (by norm_num) 1 (by norm_num)

/-- Claim C9: for every positive N the solver works on grids of exactly
N + 1 entries: the payoff initialization produces N + 1 values, every one
of the checked (fallible) grid accesses performed by the stepping
succeeds - so each of the first k iterations yields some grid of length
N + 1 - and the full solve terminates after exactly Msteps iterations
with a grid of length N + 1. -/
theorem solver_memory_safety (e : ℚ → ℚ) (p : Parameters) (N : ℕ) (hN : 0 < N) :
    (initialGrid p N).length = N + 1 ∧
      (∀ k, ∃ W, solveSteps e p N (Msteps p N) k = some W ∧ W.length = N + 1) ∧
      ∃ V, computeCallOptionPrice e p N = some V ∧ V.length = N + 1 := by
  refine ⟨by rw [initialGrid, List.length_map, List.length_range],
    fun k => solveSteps_some e p N (Msteps p N) k, ?_⟩
  exact solveSteps_some e p N (Msteps p N) (Msteps p N)

theorem solver_memory_safety_witness :
    (initialGrid pEx 2).length = 2 + 1 ∧
      (∀ k, ∃ W, solveSteps idExp pEx 2 (Msteps pEx 2) k = some W ∧ W.length = 2 + 1) ∧
      ∃ V, computeCallOptionPrice idExp pEx 2 = some V ∧ V.length = 2 + 1 :=
  solver_memory_safety idExp pEx 2 (by norm_num)

/-- Claim C7: on the final grid, with idx = S0 / dS, j0 = floor(idx) and
w = idx - j0: the call price is the linear interpolation
(1 - w) * U[j0] + w * U[j0 + 1] whenever 0 <= j0 < N; Delta is the
central difference (U[j0 + 1] - U[j0 - 1]) / (2 * dS) when 0 < j0 < N and
0 otherwise; Gamma is the central second difference
(U[j0 + 1] - 2 * U[j0] + U[j0 - 1]) / dS^2 when 0 < j0 < N and 0
otherwise. -/
theorem evaluator_formulas (p : Parameters) (N : ℕ) (U : List ℚ)
    (hU : U.length = N + 1) :
    (0 ≤ j0 p N → j0 p N < (N : ℤ) →
      evalPrice p N U
        = some ((1 - wFrac p N) * U.getD (j0 p N).toNat 0
          + wFrac p N * U.getD ((j0 p N).toNat + 1) 0)) ∧
    (0 < j0 p N → j0 p N < (N : ℤ) →
      evalDelta p N U
          = some ((U.getD ((j0 p N).toNat + 1) 0 - U.getD ((j0 p N).toNat - 1) 0)
            / (2 * dS p N)) ∧
        evalGamma p N U
          = some ((U.getD ((j0 p N).toNat + 1) 0 - 2 * U.getD (j0 p N).toNat 0
              + U.getD ((j0 p N).toNat - 1) 0) / (dS p N * dS p N))) ∧
    (¬(0 < j0 p N ∧ j0 p N < (N : ℤ)) →
      evalDelta p N U = some 0 ∧ evalGamma p N U = some 0) := by
  refine ⟨?_, ?_, ?_⟩
  · intro h0 hlt
    have r0 : readGrid U (j0 p N) = some (U.getD (j0 p N).toNat 0) :=
      readGrid_eq_getD U _ h0 (by rw [hU]; omega)
    have r1 : readGrid U (j0 p N + 1) = some (U.getD ((j0 p N).toNat + 1) 0) := by
      have h := readGrid_eq_getD U (j0 p N + 1) (by omega) (by rw [hU]; omega)
      rwa [show (j0 p N + 1).toNat = (j0 p N).toNat + 1 by omega] at h
    rw [evalPrice, if_pos ⟨h0, hlt⟩]
    simp [r0, r1]
  · intro h0 hlt
    have r1 : readGrid U (j0 p N + 1) = some (U.getD ((j0 p N).toNat + 1) 0) := by
      have h := readGrid_eq_getD U (j0 p N + 1) (by omega) (by rw [hU]; omega)
      rwa [show (j0 p N + 1).toNat = (j0 p N).toNat + 1 by omega] at h
    have rm : readGrid U (j0 p N - 1) = some (U.getD ((j0 p N).toNat - 1) 0) := by
      have h := readGrid_eq_getD U (j0 p N - 1) (by omega) (by rw [hU]; omega)
      rwa [show (j0 p N - 1).toNat = (j0 p N).toNat - 1 by omega] at h
    have r0 : readGrid U (j0 p N) = some (U.getD (j0 p N).toNat 0) :=
      readGrid_eq_getD U _ (by omega) (by rw [hU]; omega)
    constructor
    · rw [evalDelta, if_pos ⟨h0, hlt⟩]
      simp [r1, rm]
    · rw [evalGamma, if_pos ⟨h0, hlt⟩]
      simp [r1, r0, rm]
  · intro h
    exact ⟨by rw [evalDelta, if_neg h], by rw [evalGamma, if_neg h]⟩

/-- Final grid stand-in used to witness the evaluator formulas and to
exhibit the out-of-range read: 101 entries, as produced for N = 100. -/
def U101 : List ℚ := List.replicate 101 0

theorem evaluator_formulas_witness :
    evalPrice pEx 100 U101
        = some ((1 - wFrac pEx 100) * U101.getD (j0 pEx 100).toNat 0
          + wFrac pEx 100 * U101.getD ((j0 pEx 100).toNat + 1) 0) ∧
      evalDelta pEx 100 U101
        = some ((U101.getD ((j0 pEx 100).toNat + 1) 0 - U101.getD ((j0 pEx 100).toNat - 1) 0)
          / (2 * dS pEx 100)) ∧
      evalGamma pEx 100 U101
        = some ((U101.getD ((j0 pEx 100).toNat + 1) 0 - 2 * U101.getD (j0 pEx 100).toNat 0
            + U101.getD ((j0 pEx 100).toNat - 1) 0) / (dS pEx 100 * dS pEx 100)) := by
  have hj : j0 pEx 100 = 18 := by
    rw [j0, show pEx.S0 / dS pEx 100 = 500/27 by norm_num [pEx, dS, Smax],
      Int.floor_eq_iff]
    norm_num
  refine ⟨(evaluator_formulas pEx 100 U101 (by simp [U101])).1 (by rw [hj]; norm_num)
      (by rw [hj]; norm_num),
    ((evaluator_formulas pEx 100 U101 (by simp [U101])).2.1 (by rw [hj]; norm_num)
      (by rw [hj]; norm_num)).1,
    ((evaluator_formulas pEx 100 U101 (by simp [U101])).2.1 (by rw [hj]; norm_num)
      (by rw [hj]; norm_num)).2⟩

/-- Claim C6: the parity adjustment of displayResults.  When the
instrument is a put (type == 0) the reported price is
price_call - S0 + K * exp(-r * T) and the reported delta is
delta_call - 1, both exact expressions over the call values, and gamma
passes through unchanged; when the instrument is a call (type == 1) all
three outputs equal the call inputs unchanged. -/
theorem put_call_parity_adjustment (e : ℚ → ℚ) (p : Parameters) (pc dc g : ℚ) :
    (p.type = 0 →
      adjustForPut e p pc dc g
        = { price := pc - p.S0 + p.K * e (-(p.r * p.T)), delta := dc - 1, gamma := g }) ∧
    (p.type = 1 →
      adjustForPut e p pc dc g = { price := pc, delta := dc, gamma := g }) := by
  constructor
  · intro h
    rw [adjustForPut, if_pos h]
  · intro h
    rw [adjustForPut, if_neg (by rw [h]; norm_num)]

theorem put_call_parity_adjustment_witness :
    adjustForPut idExp pPutEx 7 2 3
        = { price := 7 - pPutEx.S0 + pPutEx.K * idExp (-(pPutEx.r * pPutEx.T)),
            delta := 2 - 1, gamma := 3 } ∧
      adjustForPut idExp pEx 7 2 3 = { price := 7, delta := 2, gamma := 3 } :=
  ⟨(put_call_parity_adjustment idExp pPutEx 7 2 3).1 rfl,
    (put_call_parity_adjustment idExp pEx 7 2 3).2 rfl⟩

/-- Parameter set exhibiting the out-of-range evaluation: S0 = 2000 with
K = 135 (so Smax = 540 and, at N = 100, dS = 27/5), giving
j0 = floor(2000 / (27/5)) = 370. -/
def pC2 : Parameters := { type := 1, S0 := 2000, K := 135, r := 1/20, sigma := 1/5, T := 1 }

/-- Claim C2: for a spot above the price ceiling the fractional index j0
exceeds N, and the price expression of displayResults reads U[j0] with no
clamping: on a grid of the N + 1 entries the solver produces, the checked
read fails (the C++ access is out of bounds), so the evaluation does not
return an edge value - refuting the claimed edge-clamp behavior. -/
theorem out_of_bounds_read_on_large_spot :
    (100 : ℤ) < j0 pC2 100 ∧ evalPrice pC2 100 U101 = none ∧
      displayResults idExp pC2 100 U101 = none := by
  have hj : j0 pC2 100 = 370 := by
    rw [j0, show pC2.S0 / dS pC2 100 = 10000/27 by norm_num [pC2, dS, Smax],
      Int.floor_eq_iff]
    norm_num
  have hnone : evalPrice pC2 100 U101 = none := by
    rw [evalPrice, if_neg (by rw [hj]; norm_num), hj, readGrid,
      dif_neg (by simp [U101])]
  refine ⟨by rw [hj]; norm_num, hnone, ?_⟩
  simp [displayResults, hnone]

/-- Claim C10: the pricing pipeline is deterministic and ignores the
Parameters given to the constructor: for one fixed sequence of validated
user inputs (the option fields inp, the mode, and the custom step count),
two runs started from any two constructor states - including the
mismatched five-value default initializer of main - produce identical
results, because inputParameters overwrites every field and Smax before
any computation reads them. -/
theorem run_noninterference (e : ℚ → ℚ) (p0 q0 inp : Parameters) (mode : ℤ)
    (customN : ℕ) (hty : inp.type = 0 ∨ inp.type = 1) (hS0 : 0 < inp.S0)
    (hK : 0 < inp.K) (hr0 : 0 ≤ inp.r) (hr1 : inp.r ≤ 1) (hs0 : 0 < inp.sigma)
    (hs1 : inp.sigma ≤ 1) (hT : 0 < inp.T) :
    runPricer e p0 inp mode customN = runPricer e q0 inp mode customN := rfl

theorem run_noninterference_witness :
    runPricer idExp mainDefaultParams pEx 2 0 = runPricer idExp pPutEx pEx 2 0 :=
  run_noninterference idExp mainDefaultParams pPutEx pEx 2 0 (Or.inr rfl)
    (by norm_num [pEx]) (by norm_num [pEx]) (by norm_num [pEx]) (by norm_num [pEx])
    (by norm_num [pEx]) (by norm_num [pEx]) (by norm_num [pEx])
